import Mathlib

/-!
Shallow embedding of the segmented time editor of
`src/packages/react-widgets/src/TimeInput.js`, together with theorems about
its value-parts codec, segment validator, keystroke accumulation, increment
policy, clear action and edit-session reconciliation.

JS machine values are modelled as follows: a JS `Date` becomes a record of an
abstract day index plus the four time-of-day fields (`JDate`); nullable
segment values become `Option Nat`; regex tests become structural predicates
on the string's character list; `NaN` results of numeric coercion become
`none : Option Int`.
-/

namespace TimeInput

/-- Display precision, the `precision` prop: `'minutes' | 'seconds' | 'milliseconds'`. -/
inductive Precision
  | minutes
  | seconds
  | milliseconds
  deriving DecidableEq, Repr

/-- The meridiem marker strings `'AM' | 'PM'`. -/
inductive Meridiem
  | AM
  | PM
  deriving DecidableEq, Repr

/-- The segment record produced by `getValueParts` and held by
`useTimePartState`: each numeric field is independently nullable, `meridiem`
always carries a value. -/
structure TimeParts where
  hours : Option Nat
  minutes : Option Nat
  seconds : Option Nat
  milliseconds : Option Nat
  meridiem : Meridiem
  deriving DecidableEq, Repr

/-- A JS `Date` restricted to the reads and writes `TimeInput.js` performs: an
abstract day index (standing for the year/month/day portion) plus the four
time-of-day fields. The setters below model JS rollover for the non-negative
arguments that are the only ones the widget ever passes. -/
structure JDate where
  day : Nat
  hours : Nat
  minutes : Nat
  seconds : Nat
  milliseconds : Nat
  deriving DecidableEq, Repr

/-- A `JDate` whose time fields are in the ranges a real `Date` reports. -/
def JDate.wellFormed (d : JDate) : Prop :=
  d.hours < 24 ∧ d.minutes < 60 ∧ d.seconds < 60 ∧ d.milliseconds < 1000

instance (d : JDate) : Decidable d.wellFormed := by
  unfold JDate.wellFormed; infer_instance

/-- JS `date.setHours(h)` for `0 ≤ h`: overflow past 23 rolls into the day. -/
def setHours (d : JDate) (h : Nat) : JDate :=
  { d with day := d.day + h / 24, hours := h % 24 }

/-- JS `date.setMinutes(m)` for `0 ≤ m`: overflow rolls into hours, then days. -/
def setMinutes (d : JDate) (m : Nat) : JDate :=
  { d with
    day := d.day + (d.hours + m / 60) / 24
    hours := (d.hours + m / 60) % 24
    minutes := m % 60 }

/-- JS `date.setSeconds(s)` for `0 ≤ s`, with rollover. -/
def setSeconds (d : JDate) (s : Nat) : JDate :=
  { d with
    day := d.day + (d.hours + (d.minutes + s / 60) / 60) / 24
    hours := (d.hours + (d.minutes + s / 60) / 60) % 24
    minutes := (d.minutes + s / 60) % 60
    seconds := s % 60 }

/-- JS `date.setMilliseconds(ms)` for `0 ≤ ms`, with rollover. -/
def setMilliseconds (d : JDate) (ms : Nat) : JDate :=
  { d with
    day := d.day + (d.hours + (d.minutes + (d.seconds + ms / 1000) / 60) / 60) / 24
    hours := (d.hours + (d.minutes + (d.seconds + ms / 1000) / 60) / 60) % 24
    minutes := (d.minutes + (d.seconds + ms / 1000) / 60) % 60
    seconds := (d.seconds + ms / 1000) % 60
    milliseconds := ms % 1000 }

/-- `getValueParts(value, use12HourClock)` (TimeInput.js:44-61): decompose an
optional timestamp into a segment record.  In 12-hour mode the displayed hour
is `hours % 12 || 12` and the meridiem is `AM` for hours below 12. -/
def getValueParts (value : Option JDate) (use12HourClock : Bool) : TimeParts :=
  match value with
  | none =>
    { hours := none, minutes := none, seconds := none, milliseconds := none,
      meridiem := Meridiem.AM }
  | some v =>
    let h := v.hours
    { hours :=
        some (if use12HourClock then (if h % 12 = 0 then 12 else h % 12) else h)
      minutes := some v.minutes
      seconds := some v.seconds
      milliseconds := some v.milliseconds
      meridiem :=
        if use12HourClock then (if h < 12 then Meridiem.AM else Meridiem.PM)
        else Meridiem.AM }

/-- `isEmptyValue(p, precision)` (TimeInput.js:31-35). -/
def isEmptyValue (p : TimeParts) (precision : Precision) : Bool :=
  p.hours.isNone && p.minutes.isNone &&
    ((decide (precision ≠ Precision.seconds) &&
      decide (precision ≠ Precision.milliseconds)) || p.seconds.isNone) &&
    (decide (precision ≠ Precision.milliseconds) || p.milliseconds.isNone)

/-- `isPartialValue(p, precision)` (TimeInput.js:38-42). -/
def isPartialValue (p : TimeParts) (precision : Precision) : Bool :=
  p.hours.isNone || p.minutes.isNone ||
    ((decide (precision = Precision.seconds) ||
      decide (precision = Precision.milliseconds)) && p.seconds.isNone) ||
    (decide (precision = Precision.milliseconds) && p.milliseconds.isNone)

/-- The regex character class `[0-9]`. -/
def digitChars : List Char :=
  ['0', '1', '2', '3', '4', '5', '6', '7', '8', '9']

/-- Membership in the `[0-9]` character class. -/
def isDigitCh (c : Char) : Bool :=
  digitChars.contains c

/-- `TESTS.hours`, the regex `^([1]?[0-9]|2[0-3])$`: a single digit, `'1'`
followed by a digit, or `'2'` followed by `[0-3]`. -/
def testHours : List Char → Bool
  | [d] => isDigitCh d
  | [a, d] => (a == '1' && isDigitCh d) || (a == '2' && ['0', '1', '2', '3'].contains d)
  | _ => false

/-- `TESTS.hours12`, the regex `^^(1[0-2]|0?[1-9])$$`: `'1'` followed by
`[0-2]`, a single `[1-9]`, or `'0'` followed by `[1-9]`. -/
def testHours12 : List Char → Bool
  | [d] => ['1', '2', '3', '4', '5', '6', '7', '8', '9'].contains d
  | [a, d] =>
    (a == '1' && ['0', '1', '2'].contains d) ||
      (a == '0' && ['1', '2', '3', '4', '5', '6', '7', '8', '9'].contains d)
  | _ => false

/-- `TESTS.minutes` and `TESTS.seconds`, the regex `^([0-5]?\d)$`. -/
def testMinSec : List Char → Bool
  | [d] => isDigitCh d
  | [a, d] => ['0', '1', '2', '3', '4', '5'].contains a && isDigitCh d
  | _ => false

/-- `TESTS.milliseconds`, the regex `^(\d{1,3})$`. -/
def testMilliseconds (cs : List Char) : Bool :=
  decide (1 ≤ cs.length) && decide (cs.length ≤ 3) && cs.all isDigitCh

/-- The four numeric segments (the meridiem segment is handled separately). -/
inductive NumPart
  | hours
  | minutes
  | seconds
  | milliseconds
  deriving DecidableEq, Repr

/-- A focusable segment: a numeric part or the meridiem marker. -/
inductive Part
  | num (p : NumPart)
  | meridiem
  deriving DecidableEq, Repr

/-- `isValid(value, part, use12HourClock)` (TimeInput.js:71-74): the `hours`
part switches between the 24-hour and 12-hour test; the rest use their own
test directly. -/
def isValid (value : String) (part : NumPart) (use12HourClock : Bool) : Bool :=
  match part with
  | NumPart.hours =>
    if use12HourClock then testHours12 value.data else testHours value.data
  | NumPart.minutes => testMinSec value.data
  | NumPart.seconds => testMinSec value.data
  | NumPart.milliseconds => testMilliseconds value.data

/-- Value of a decimal digit character. -/
def digitVal (c : Char) : Nat :=
  c.toNat - 48

/-- Value of a decimal digit string. -/
def digitsVal (cs : List Char) : Nat :=
  cs.foldl (fun a c => 10 * a + digitVal c) 0

/-- JS numeric coercion `+s` restricted to the strings the widget feeds it:
the empty string is `0`, a non-empty digit string is its decimal value, a
`'-'` followed by digits is negative, anything else is `NaN` (`none`). -/
def jsToNum (s : String) : Option Int :=
  match s.data with
  | [] => some 0
  | a :: rest =>
    if a = '-' then
      if rest ≠ [] ∧ rest.all isDigitCh then some (-(digitsVal rest : Int))
      else none
    else if (a :: rest).all isDigitCh then some (digitsVal (a :: rest))
    else none

/-- JS `String(i)` for an integer. -/
def jsIntString (i : Int) : String :=
  if i < 0 then "-" ++ Nat.repr i.natAbs else Nat.repr i.natAbs

/-- Read one numeric field of a segment record (`timeParts[part]`). -/
def getNumPart (tp : TimeParts) : NumPart → Option Nat
  | NumPart.hours => tp.hours
  | NumPart.minutes => tp.minutes
  | NumPart.seconds => tp.seconds
  | NumPart.milliseconds => tp.milliseconds

/-- A subset-update record, the `updates` object spread over the current
parts by `notifyChange` (`{ ...timeParts, ...updates }`). -/
structure Updates where
  hours : Option (Option Nat) := none
  minutes : Option (Option Nat) := none
  seconds : Option (Option Nat) := none
  milliseconds : Option (Option Nat) := none
  meridiem : Option Meridiem := none
  deriving DecidableEq, Repr

/-- JS object spread `{ ...tp, ...u }`. -/
def mergeUpdates (tp : TimeParts) (u : Updates) : TimeParts :=
  { hours := u.hours.getD tp.hours
    minutes := u.minutes.getD tp.minutes
    seconds := u.seconds.getD tp.seconds
    milliseconds := u.milliseconds.getD tp.milliseconds
    meridiem := u.meridiem.getD tp.meridiem }

/-- The single-field update object `{ [part]: v }` for a numeric part. -/
def numUpdate : NumPart → Option Nat → Updates
  | NumPart.hours, v => { hours := some v }
  | NumPart.minutes, v => { minutes := some v }
  | NumPart.seconds, v => { seconds := some v }
  | NumPart.milliseconds, v => { milliseconds := some v }

/-- The update object `{ meridiem: m }`. -/
def meridiemUpdate (m : Meridiem) : Updates :=
  { meridiem := some m }

/-- The `meta` argument of `onChange`: `{ lastValue: value, timeParts }`. -/
structure ChangeMeta where
  lastValue : Option JDate
  timeParts : TimeParts
  deriving DecidableEq, Repr

/-- Observable outcome of `notifyChange`: `onChange(null)`, a buffered
`setTimeParts(next)` with no `onChange`, or `onChange(nextDate, meta)`. -/
inductive NotifyOutcome
  | cleared
  | buffered (next : TimeParts)
  | changed (date : JDate) (meta : ChangeMeta)
  deriving DecidableEq, Repr

/-- The composition path of `notifyChange` (TimeInput.js:352-364): build
`nextDate` from `value` (or the start-of-day basis) and write the segment
fields into it.  Returns `none` when hours or minutes are absent, which
`notifyChange` rules out via `isPartialValue` before entering this path. -/
def composeDate (value : Option JDate) (basis : JDate) (use12HourClock : Bool)
    (next : TimeParts) : Option JDate :=
  match next.hours, next.minutes with
  | some h0, some m =>
    let hours :=
      if use12HourClock then
        (if h0 = 12 then 0 else h0) + (if next.meridiem = Meridiem.PM then 12 else 0)
      else h0
    let d := setMinutes (setHours (value.getD basis) hours) m
    let d := match next.seconds with | some s => setSeconds d s | none => d
    let d := match next.milliseconds with | some ms => setMilliseconds d ms | none => d
    some d
  | _, _ => none

/-- `notifyChange(updates)` (TimeInput.js:342-370).  `basis` stands for
`getDatePart()`, the start-of-day date used when no value exists. -/
def notifyChange (value : Option JDate) (use12HourClock : Bool)
    (precision : Precision) (basis : JDate) (timeParts : TimeParts)
    (updates : Updates) : NotifyOutcome :=
  let next := mergeUpdates timeParts updates
  if value.isSome && isEmptyValue next precision then NotifyOutcome.cleared
  else if isPartialValue next precision then NotifyOutcome.buffered next
  else
    match composeDate value basis use12HourClock next with
    | some d =>
      NotifyOutcome.changed d { lastValue := value, timeParts := timeParts }
    | none => NotifyOutcome.buffered next

/-- Observable outcome of `handleChange`: `event.preventDefault()` with no
state change, or a call to `notifyChange` with a single-field update. -/
inductive ChangeOutcome
  | rejected
  | notify (u : Updates)
  deriving DecidableEq, Repr

/-- `handleChange(part, event)` (TimeInput.js:266-290).  `rawValue` is the
input's new text.  JS `${currentValue || ''}` renders a buffered `0` as the
empty string, hence the inner `if n = 0` test. -/
def handleChange (timeParts : TimeParts) (use12HourClock : Bool)
    (part : NumPart) (rawValue : String) : ChangeOutcome :=
  let currentValue := getNumPart timeParts part
  let bufStr :=
    match currentValue with
    | some n => if n = 0 then "" else Nat.repr n
    | none => ""
  let strValue := bufStr ++ rawValue
  let numValue := jsToNum strValue
  if numValue.isNone ||
      (decide (strValue ≠ "") && !isValid strValue part use12HourClock) then
    if isValid rawValue part use12HourClock && (jsToNum rawValue).isSome then
      ChangeOutcome.notify
        (numUpdate part
          (if rawValue = "" then none
           else some ((jsToNum rawValue).getD 0).toNat))
    else ChangeOutcome.rejected
  else
    ChangeOutcome.notify
      (numUpdate part
        (if rawValue = "" then none else some (numValue.getD 0).toNat))

/-- Observable outcome of the increment body: rejected no-op or a call to
`notifyChange` with a single-field update. -/
inductive IncOutcome
  | noop
  | notify (u : Updates)
  deriving DecidableEq, Repr

/-- Body of `increment(part, inc)` (TimeInput.js:329-340): meridiem toggles,
numeric parts take `(current || 0) + inc` and keep it only if the stringified
result passes `isValid`. -/
def incrementInner (timeParts : TimeParts) (use12HourClock : Bool)
    (part : Part) (inc : Int) : IncOutcome :=
  match part with
  | Part.meridiem =>
    IncOutcome.notify
      (meridiemUpdate
        (if timeParts.meridiem = Meridiem.AM then Meridiem.PM else Meridiem.AM))
  | Part.num p =>
    let next : Int := ((getNumPart timeParts p).getD 0 : Nat) + inc
    if isValid (jsIntString next) p use12HourClock then
      IncOutcome.notify (numUpdate p (some next.toNat))
    else IncOutcome.noop

/-- Modelled from the spec: `createEditableCallback` lives in
`util/interaction`, which is not under `src/`; per the spec, every callback
it wraps is suppressed entirely (no state mutation, no `onChange`) while the
control is disabled or read-only.  `none` is the suppressed outcome. -/
def useEditableCallback {α : Type} (disabledOrReadOnly : Bool) (result : α) :
    Option α :=
  if disabledOrReadOnly then none else some result

/-- `increment` as wired in the component: the body wrapped by
`useEditableCallback(disabled || readOnly)`. -/
def increment (disabledOrReadOnly : Bool) (timeParts : TimeParts)
    (use12HourClock : Bool) (part : Part) (inc : Int) : Option IncOutcome :=
  useEditableCallback disabledOrReadOnly
    (incrementInner timeParts use12HourClock part inc)

/-- What the clear handler does with the session: call `onChange(null)` or
reset the buffered segments. -/
inductive ClearAction
  | notifyNull
  | reset (tp : TimeParts)
  deriving DecidableEq, Repr

/-- Observable effects of `handleClear`: it always focuses the hours segment,
then either notifies upward with `null` or resets the buffer. -/
structure ClearEffects where
  focusHours : Bool
  action : ClearAction
  deriving DecidableEq, Repr

/-- Body of `handleClear` (TimeInput.js:259-264).  `getValueParts(null)`
passes no mode argument, so the 12-hour flag is JS `undefined`, i.e. false. -/
def handleClearInner (value : Option JDate) : ClearEffects :=
  { focusHours := true
    action :=
      if value.isSome then ClearAction.notifyNull
      else ClearAction.reset (getValueParts none false) }

/-- `handleClear` as wired: the body wrapped by `useEditableCallback`. -/
def handleClear (disabledOrReadOnly : Bool) (value : Option JDate) :
    Option ClearEffects :=
  useEditableCallback disabledOrReadOnly (handleClearInner value)

/-- Observable effects of one key press inside `handleKeyDown`'s body:
whether an increment was issued (and with which delta), whether focus moved
(and in which direction), whether the meridiem was forced, and whether
`event.preventDefault()` was called. -/
structure KeyEffects where
  incremented : Option (Part × Int)
  focusMove : Option Int
  meridiemSet : Option Meridiem
  prevented : Bool
  deriving DecidableEq, Repr

/-- Body of `handleKeyDown(part, event)` (TimeInput.js:296-327).  `selStart`
and `selEnd` are the input's selection offsets and `valueLength` its text
length; JS `start - 1 < 0` holds exactly when `selStart = 0`. -/
def handleKeyDownInner (part : Part) (readOnly : Bool) (key : String)
    (selStart selEnd valueLength : Nat) : KeyEffects :=
  let isMeridiem : Bool := decide (part = Part.meridiem)
  let incremented : Option (Part × Int) :=
    if key = "ArrowUp" then some (part, 1)
    else if key = "ArrowDown" then some (part, -1)
    else none
  let focusMove : Option Int :=
    if key = "ArrowLeft" && (isMeridiem || decide (selStart = 0)) then some (-1)
    else if key = "ArrowRight" && (isMeridiem || decide (valueLength ≤ selEnd + 1)) then
      some 1
    else none
  let meridiemSet : Option Meridiem :=
    if isMeridiem then
      if key = "a" || key = "A" then some Meridiem.AM
      else if key = "p" || key = "P" then some Meridiem.PM
      else none
    else none
  { incremented := incremented
    focusMove := focusMove
    meridiemSet := meridiemSet
    prevented :=
      incremented.isSome || focusMove.isSome || (readOnly && decide (key ≠ "Tab")) }

/-- `handleKeyDown` as wired: the body wrapped by `useEditableCallback`. -/
def handleKeyDown (disabledOrReadOnly : Bool) (part : Part) (readOnly : Bool)
    (key : String) (selStart selEnd valueLength : Nat) : Option KeyEffects :=
  useEditableCallback disabledOrReadOnly
    (handleKeyDownInner part readOnly key selStart selEnd valueLength)

/-- The state held by `useTimePartState` (TimeInput.js:176-180). -/
structure TPState where
  value : Option JDate
  use12HourClock : Bool
  timeParts : TimeParts
  deriving DecidableEq, Repr

/-- One evaluation of `useTimePartState` (TimeInput.js:175-198) as a step on
the module-level desync counter and the hook state: when the incoming value
or mode differs from the snapshot, the counter is bumped and — only while the
bumped counter is still below 100 — the state is rederived from the incoming
value and mode. -/
def useTimePartState (count : Nat) (st : TPState) (value : Option JDate)
    (use12HourClock : Bool) : Nat × TPState :=
  if st.value ≠ value ∨ st.use12HourClock ≠ use12HourClock then
    if count + 1 < 100 then
      (count + 1,
        { value := value, use12HourClock := use12HourClock,
          timeParts := getValueParts value use12HourClock })
    else (count + 1, st)
  else (count, st)

/-! ### Helper definitions used by the theorem statements -/

/-- The canonical decimal strings `"0"`, `"1"`, …, `"23"`. -/
def hours24Strings : List String :=
  ["0", "1", "2", "3", "4", "5", "6", "7", "8", "9", "10", "11", "12", "13",
   "14", "15", "16", "17", "18", "19", "20", "21", "22", "23"]

/-- The numeric segments the given precision requires for a complete value. -/
def requiredParts : Precision → List NumPart
  | Precision.minutes => [NumPart.hours, NumPart.minutes]
  | Precision.seconds => [NumPart.hours, NumPart.minutes, NumPart.seconds]
  | Precision.milliseconds =>
    [NumPart.hours, NumPart.minutes, NumPart.seconds, NumPart.milliseconds]

/-- The buffered value as the claim renders it: the canonical decimal string
of the stored number, or empty when the segment is absent. -/
def bufferString : Option Nat → String
  | some n => Nat.repr n
  | none => ""

/-- The concatenation of the buffered value's string and the raw input, the
claim's notion of the combined entry for a segment. -/
def combinedString (tp : TimeParts) (part : NumPart) (raw : String) : String :=
  bufferString (getNumPart tp part) ++ raw

/-! ### Helper lemmas -/

theorem isDigitCh_iff (c : Char) :
    isDigitCh c = true ↔
      c = '0' ∨ c = '1' ∨ c = '2' ∨ c = '3' ∨ c = '4' ∨ c = '5' ∨ c = '6' ∨
        c = '7' ∨ c = '8' ∨ c = '9' := by
  simp [isDigitCh, digitChars]

theorem isPartialValue_false_some (p : TimeParts) (precision : Precision)
    (h : isPartialValue p precision = false) :
    (∃ h0, p.hours = some h0) ∧ ∃ m0, p.minutes = some m0 := by
  simp only [isPartialValue, Bool.or_eq_false_iff, Bool.and_eq_false_iff] at h
  obtain ⟨⟨⟨hh, hm⟩, -⟩, -⟩ := h
  exact ⟨Option.isSome_iff_exists.mp ((Option.isNone_eq_false_iff _).mp hh),
    Option.isSome_iff_exists.mp ((Option.isNone_eq_false_iff _).mp hm)⟩

theorem isDigitCh_ne_dash (c : Char) (h : isDigitCh c = true) : c ≠ '-' := by
  rw [isDigitCh_iff] at h
  rcases h with rfl | rfl | rfl | rfl | rfl | rfl | rfl | rfl | rfl | rfl <;>
    decide

theorem digitsVal_single (c : Char) : digitsVal [c] = digitVal c := by
  simp [digitsVal]

theorem digitsVal_zero_cons (c : Char) : digitsVal ['0', c] = digitVal c := by
  have h0 : digitVal '0' = 0 := rfl
  simp [digitsVal, h0]

theorem jsToNum_all_digits (cs : List Char) (hne : cs ≠ [])
    (hd : cs.all isDigitCh = true) :
    jsToNum (String.mk cs) = some (digitsVal cs) := by
  rcases cs with - | ⟨a, rest⟩
  · exact absurd rfl hne
  · have ha : isDigitCh a = true := by
      simp only [List.all_cons, Bool.and_eq_true] at hd
      exact hd.1
    have hdash : a ≠ '-' := isDigitCh_ne_dash a ha
    simp [jsToNum, hdash, hd]

theorem jsToNum_singleton (c : Char) :
    jsToNum (String.mk [c]) =
      if isDigitCh c = true then some ((digitVal c : Int)) else none := by
  by_cases hc : c = '-'
  · subst hc; decide
  · by_cases hd : isDigitCh c = true
    · simp [jsToNum, hc, hd, digitsVal_single]
    · simp [jsToNum, hc, hd]

theorem jsToNum_zero_cons (c : Char) :
    jsToNum (String.mk ['0', c]) = jsToNum (String.mk [c]) := by
  rw [jsToNum_singleton]
  by_cases hd : isDigitCh c = true
  · have hall : (['0', c].all isDigitCh) = true := by
      simp [hd, (by decide : isDigitCh '0' = true)]
    simp [jsToNum, (by decide : ¬ ('0' : Char) = '-'), hall, hd,
      digitsVal_zero_cons]
  · have hall : (['0', c].all isDigitCh) = false := by
      simp [(by decide : isDigitCh '0' = true)]
      exact Bool.not_eq_true _ |>.mp hd
    simp [jsToNum, (by decide : ¬ ('0' : Char) = '-'), hall, hd]

theorem testHours_digits (cs : List Char) (h : testHours cs = true) :
    cs ≠ [] ∧ cs.all isDigitCh = true := by
  rcases cs with - | ⟨a, - | ⟨b, - | ⟨d, rest⟩⟩⟩
  · simp [testHours] at h
  · have h' : isDigitCh a = true := by simpa [testHours] using h
    simp [h']
  · have h' : (a = '1' ∧ isDigitCh b = true) ∨
        (a = '2' ∧ (b = '0' ∨ b = '1' ∨ b = '2' ∨ b = '3')) := by
      simpa [testHours] using h
    refine ⟨by simp, ?_⟩
    rcases h' with ⟨rfl, hb⟩ | ⟨rfl, hb⟩
    · simp [hb, (by decide : isDigitCh '1' = true)]
    · rcases hb with rfl | rfl | rfl | rfl <;> decide
  · simp [testHours] at h

theorem testHours12_digits (cs : List Char) (h : testHours12 cs = true) :
    cs ≠ [] ∧ cs.all isDigitCh = true := by
  rcases cs with - | ⟨a, - | ⟨b, - | ⟨d, rest⟩⟩⟩
  · simp [testHours12] at h
  · have h' : a = '1' ∨ a = '2' ∨ a = '3' ∨ a = '4' ∨ a = '5' ∨ a = '6' ∨
        a = '7' ∨ a = '8' ∨ a = '9' := by simpa [testHours12] using h
    rcases h' with rfl | rfl | rfl | rfl | rfl | rfl | rfl | rfl | rfl <;> decide
  · have h' : (a = '1' ∧ (b = '0' ∨ b = '1' ∨ b = '2')) ∨
        (a = '0' ∧ (b = '1' ∨ b = '2' ∨ b = '3' ∨ b = '4' ∨ b = '5' ∨ b = '6' ∨
          b = '7' ∨ b = '8' ∨ b = '9')) := by
      simpa [testHours12] using h
    refine ⟨by simp, ?_⟩
    rcases h' with ⟨rfl, hb⟩ | ⟨rfl, hb⟩
    · rcases hb with rfl | rfl | rfl <;> decide
    · rcases hb with rfl | rfl | rfl | rfl | rfl | rfl | rfl | rfl | rfl <;> decide
  · simp [testHours12] at h

theorem testMinSec_digits (cs : List Char) (h : testMinSec cs = true) :
    cs ≠ [] ∧ cs.all isDigitCh = true := by
  rcases cs with - | ⟨a, - | ⟨b, - | ⟨d, rest⟩⟩⟩
  · simp [testMinSec] at h
  · have h' : isDigitCh a = true := by simpa [testMinSec] using h
    simp [h']
  · have h' : (a = '0' ∨ a = '1' ∨ a = '2' ∨ a = '3' ∨ a = '4' ∨ a = '5') ∧
        isDigitCh b = true := by
      simpa [testMinSec] using h
    refine ⟨by simp, ?_⟩
    obtain ⟨ha, hb⟩ := h'
    rcases ha with rfl | rfl | rfl | rfl | rfl | rfl <;> simp [hb] <;> decide
  · simp [testMinSec] at h

theorem testMilliseconds_digits (cs : List Char) (h : testMilliseconds cs = true) :
    cs ≠ [] ∧ cs.all isDigitCh = true := by
  simp only [testMilliseconds, Bool.and_eq_true, decide_eq_true_eq] at h
  exact ⟨List.ne_nil_of_length_pos (by omega), h.2⟩

theorem valid_nonempty_digits (s : String) (p : NumPart) (u12 : Bool)
    (h : isValid s p u12 = true) :
    s.data ≠ [] ∧ s.data.all isDigitCh = true := by
  cases p
  case hours =>
    cases u12
    · exact testHours_digits s.data (by simpa [isValid] using h)
    · exact testHours12_digits s.data (by simpa [isValid] using h)
  case minutes => exact testMinSec_digits s.data (by simpa [isValid] using h)
  case seconds => exact testMinSec_digits s.data (by simpa [isValid] using h)
  case milliseconds =>
    exact testMilliseconds_digits s.data (by simpa [isValid] using h)

theorem valid_zero_cons (p : NumPart) (u12 : Bool) (c : Char)
    (h : isValid (String.mk ['0', c]) p u12 = true) :
    isValid (String.mk [c]) p u12 = true ∧ isDigitCh c = true := by
  cases p
  case hours =>
    cases u12
    · simp [isValid, testHours] at h
    · have h' : c = '1' ∨ c = '2' ∨ c = '3' ∨ c = '4' ∨ c = '5' ∨ c = '6' ∨
          c = '7' ∨ c = '8' ∨ c = '9' := by
        simpa [isValid, testHours12] using h
      rcases h' with rfl | rfl | rfl | rfl | rfl | rfl | rfl | rfl | rfl <;> decide
  case minutes =>
    have h' : isDigitCh c = true := by simpa [isValid, testMinSec] using h
    exact ⟨by simpa [isValid, testMinSec] using h', h'⟩
  case seconds =>
    have h' : isDigitCh c = true := by simpa [isValid, testMinSec] using h
    exact ⟨by simpa [isValid, testMinSec] using h', h'⟩
  case milliseconds =>
    have h' : isDigitCh c = true := by
      simpa [isValid, testMilliseconds, (by decide : isDigitCh '0' = true)] using h
    exact ⟨by simpa [isValid, testMilliseconds] using h', h'⟩

theorem append_singleton_ne_empty (s : String) (c : Char) :
    s ++ String.mk [c] ≠ "" := by
  obtain ⟨cs⟩ := s
  intro h
  have h' : cs ++ [c] = ([] : List Char) := congrArg String.data h
  simp at h'

theorem mk_singleton_ne_empty (c : Char) : String.mk [c] ≠ "" := by
  intro h
  have h' : [c] = ([] : List Char) := congrArg String.data h
  simp at h'

theorem handleChange_cond_true (s : String) (p : NumPart) (u12 : Bool)
    (hs : s ≠ "")
    (hna : ¬ ((jsToNum s).isSome = true ∧ isValid s p u12 = true)) :
    ((jsToNum s).isNone || (decide (s ≠ "") && !isValid s p u12)) = true := by
  by_cases hsome : (jsToNum s).isSome = true
  · have hvf : isValid s p u12 = false := by
      cases hx : isValid s p u12
      · rfl
      · exact absurd ⟨hsome, hx⟩ hna
    simp [hvf, hs]
  · rcases hx : jsToNum s with - | v
    · simp [hx]
    · exact absurd (by simp [hx]) hsome

theorem handleChange_unfold (tp : TimeParts) (u12 : Bool) (p : NumPart)
    (raw bs : String)
    (hbs : (match getNumPart tp p with
      | some n => if n = 0 then "" else Nat.repr n
      | none => "") = bs) :
    handleChange tp u12 p raw =
      if (jsToNum (bs ++ raw)).isNone ||
          (decide (bs ++ raw ≠ "") && !isValid (bs ++ raw) p u12) then
        if isValid raw p u12 && (jsToNum raw).isSome then
          ChangeOutcome.notify (numUpdate p
            (if raw = "" then none else some ((jsToNum raw).getD 0).toNat))
        else ChangeOutcome.rejected
      else
        ChangeOutcome.notify (numUpdate p
          (if raw = "" then none else some ((jsToNum (bs ++ raw)).getD 0).toNat)) := by
  simp only [handleChange]
  rw [hbs]

/-! ### Claim theorems -/

set_option maxHeartbeats 1600000 in
/-- Claim C1: decomposing a concrete well-formed timestamp with
`getValueParts` and recomposing through `notifyChange`'s composition path
(with the timestamp itself as the basis, i.e. `value = some v`) returns a
timestamp equal to `v`, in both display modes, provided the precision covers
the populated sub-minute fields; in 12-hour mode this in particular recovers
the same hour, minute and meridiem (hour 0 travels through displayed 12 AM,
hour 12 through 12 PM). -/
theorem codec_roundtrip (v : JDate) (use12HourClock : Bool)
    (precision : Precision) (basis : JDate) (hwf : v.wellFormed)
    (_hcov : (v.seconds ≠ 0 → precision ≠ Precision.minutes) ∧
      (v.milliseconds ≠ 0 → precision = Precision.milliseconds)) :
    notifyChange (some v) use12HourClock precision basis
        (getValueParts (some v) use12HourClock) {} =
      NotifyOutcome.changed v
        { lastValue := some v,
          timeParts := getValueParts (some v) use12HourClock } := by
  obtain ⟨day, H, M, S, MS⟩ := v
  obtain ⟨h24, h60, h60s, h1000⟩ := hwf
  have h24' : H < 24 := h24
  have h60' : M < 60 := h60
  have h60s' : S < 60 := h60s
  have h1000' : MS < 1000 := h1000
  clear h24 h60 h60s h1000
  cases use12HourClock
  · simp [notifyChange, mergeUpdates, getValueParts, isEmptyValue,
      isPartialValue, composeDate, setHours, setMinutes, setSeconds,
      setMilliseconds]
    omega
  · by_cases hlt : H < 12 <;>
      by_cases hmod : H % 12 = 0 <;>
        simp [notifyChange, mergeUpdates, getValueParts, isEmptyValue,
          isPartialValue, composeDate, setHours, setMinutes, setSeconds,
          setMilliseconds, hlt, hmod] <;>
        (try split_ifs) <;> omega

/-- Witness for C1 at the concrete value 00:05:06.007 in 12-hour mode (hour 0
displays as 12 AM and recomposes to hour 0). -/
theorem codec_roundtrip_witness :
    notifyChange (some ⟨0, 0, 5, 6, 7⟩) true Precision.milliseconds
        ⟨0, 0, 0, 0, 0⟩ (getValueParts (some ⟨0, 0, 5, 6, 7⟩) true) {} =
      NotifyOutcome.changed ⟨0, 0, 5, 6, 7⟩
        { lastValue := some ⟨0, 0, 5, 6, 7⟩,
          timeParts := getValueParts (some ⟨0, 0, 5, 6, 7⟩) true } :=
  codec_roundtrip ⟨0, 0, 5, 6, 7⟩ true Precision.milliseconds ⟨0, 0, 0, 0, 0⟩
    (by decide) (by decide)

/-- Claim C2: `notifyChange(updates)` merges the updates into the current
segments; when a concrete value exists and the merge classifies as empty it
reports the cleared value upward; otherwise, when the merge classifies as
incomplete it only buffers the merged segments with no upward notification;
otherwise it composes a full timestamp and reports it upward together with
the previous value and previous segment buffer as metadata. -/
theorem notify_decision (value : Option JDate) (use12HourClock : Bool)
    (precision : Precision) (basis : JDate) (timeParts : TimeParts)
    (updates : Updates) :
    ((value.isSome = true ∧
        isEmptyValue (mergeUpdates timeParts updates) precision = true) →
      notifyChange value use12HourClock precision basis timeParts updates =
        NotifyOutcome.cleared) ∧
    (¬ (value.isSome = true ∧
        isEmptyValue (mergeUpdates timeParts updates) precision = true) →
      isPartialValue (mergeUpdates timeParts updates) precision = true →
      notifyChange value use12HourClock precision basis timeParts updates =
        NotifyOutcome.buffered (mergeUpdates timeParts updates)) ∧
    (¬ (value.isSome = true ∧
        isEmptyValue (mergeUpdates timeParts updates) precision = true) →
      isPartialValue (mergeUpdates timeParts updates) precision = false →
      ∃ d, composeDate value basis use12HourClock
            (mergeUpdates timeParts updates) = some d ∧
        notifyChange value use12HourClock precision basis timeParts updates =
          NotifyOutcome.changed d
            { lastValue := value, timeParts := timeParts }) := by
  refine ⟨fun ⟨h1, h2⟩ => ?_, fun hne hp => ?_, fun hne hp => ?_⟩
  · simp [notifyChange, h1, h2]
  · have hcond : (value.isSome && isEmptyValue (mergeUpdates timeParts updates)
        precision) = false := by
      cases hv : value.isSome <;>
        cases he : isEmptyValue (mergeUpdates timeParts updates) precision <;>
          simp_all
    simp [notifyChange, hcond, hp]
  · have hcond : (value.isSome && isEmptyValue (mergeUpdates timeParts updates)
        precision) = false := by
      cases hv : value.isSome <;>
        cases he : isEmptyValue (mergeUpdates timeParts updates) precision <;>
          simp_all
    obtain ⟨⟨h0, hh⟩, ⟨m0, hm⟩⟩ :=
      isPartialValue_false_some (mergeUpdates timeParts updates) precision hp
    have hsome : (composeDate value basis use12HourClock
        (mergeUpdates timeParts updates)).isSome = true := by
      unfold composeDate
      rw [hh, hm]
      rfl
    obtain ⟨d, hd⟩ := Option.isSome_iff_exists.mp hsome
    exact ⟨d, hd, by simp [notifyChange, hcond, hp, hd]⟩

/-- Witness for C2's complete branch at a concrete input. -/
theorem notify_decision_witness :
    ∃ d, composeDate none ⟨0, 0, 0, 0, 0⟩ false
          (mergeUpdates ⟨some 10, some 20, none, none, Meridiem.AM⟩ {}) =
        some d ∧
      notifyChange none false Precision.minutes ⟨0, 0, 0, 0, 0⟩
          ⟨some 10, some 20, none, none, Meridiem.AM⟩ {} =
        NotifyOutcome.changed d
          { lastValue := none,
            timeParts := ⟨some 10, some 20, none, none, Meridiem.AM⟩ } :=
  (notify_decision none false Precision.minutes ⟨0, 0, 0, 0, 0⟩
      ⟨some 10, some 20, none, none, Meridiem.AM⟩ {}).2.2
    (by decide) (by decide)

/-- Claim C3 counterexample: the zero-padded two-digit string `"05"` is
rejected by the 24-hour hours validator, refuting the claim that every
zero-padded string `"00"`–`"09"` is accepted. -/
theorem hours24_rejects_zero_padded :
    isValid "05" NumPart.hours false = false := by
  decide

/-- Claim C3 (amended): the 24-hour hours validator accepts exactly the
canonical (unpadded) decimal strings `"0"`–`"9"`, `"10"`–`"19"` and
`"20"`–`"23"`; two-digit zero-padded forms `"00"`–`"09"` are rejected, as is
every other string. -/
theorem hours24_validator_characterization (s : String) :
    isValid s NumPart.hours false = true ↔ s ∈ hours24Strings := by
  constructor
  · intro h
    obtain ⟨cs⟩ := s
    rcases cs with - | ⟨a, - | ⟨b, - | ⟨d, rest⟩⟩⟩
    · simp [isValid, testHours] at h
    · simp only [isValid, Bool.if_false_left, if_false] at h
      have h' : isDigitCh a = true := by
        simpa [testHours] using h
      rw [isDigitCh_iff] at h'
      rcases h' with rfl | rfl | rfl | rfl | rfl | rfl | rfl | rfl | rfl | rfl <;>
        decide
    · have h' : (a = '1' ∧ isDigitCh b = true) ∨
          (a = '2' ∧ (b = '0' ∨ b = '1' ∨ b = '2' ∨ b = '3')) := by
        simpa [isValid, testHours] using h
      rcases h' with ⟨rfl, hb⟩ | ⟨rfl, hb⟩
      · rw [isDigitCh_iff] at hb
        rcases hb with rfl | rfl | rfl | rfl | rfl | rfl | rfl | rfl | rfl | rfl <;>
          decide
      · rcases hb with rfl | rfl | rfl | rfl <;> decide
    · simp [isValid, testHours] at h
  · intro h
    fin_cases h <;> decide

/-- Claim C4: per-segment keystroke accumulation.  If the concatenation of
the buffered value and the typed character is numeric and passes the segment
validator, it becomes the segment's new value; otherwise, if the raw
character alone is numeric and valid, the buffer is discarded and the
segment restarts with just that character; otherwise the keystroke is
rejected with no state change.  An empty raw value (for any buffer the
editor can actually hold, i.e. a validator-accepted one) clears the segment
back to absent. -/
theorem keystroke_accumulation (tp : TimeParts) (use12HourClock : Bool)
    (p : NumPart) (c : Char) :
    ((jsToNum (combinedString tp p (String.mk [c]))).isSome = true →
      isValid (combinedString tp p (String.mk [c])) p use12HourClock = true →
      handleChange tp use12HourClock p (String.mk [c]) =
        ChangeOutcome.notify (numUpdate p
          (some (digitsVal (combinedString tp p (String.mk [c])).data)))) ∧
    (¬ ((jsToNum (combinedString tp p (String.mk [c]))).isSome = true ∧
        isValid (combinedString tp p (String.mk [c])) p use12HourClock = true) →
      isDigitCh c = true →
      isValid (String.mk [c]) p use12HourClock = true →
      handleChange tp use12HourClock p (String.mk [c]) =
        ChangeOutcome.notify (numUpdate p (some (digitVal c)))) ∧
    (¬ ((jsToNum (combinedString tp p (String.mk [c]))).isSome = true ∧
        isValid (combinedString tp p (String.mk [c])) p use12HourClock = true) →
      ¬ (isDigitCh c = true ∧
          isValid (String.mk [c]) p use12HourClock = true) →
      handleChange tp use12HourClock p (String.mk [c]) =
        ChangeOutcome.rejected) ∧
    ((∀ n, getNumPart tp p = some n → n ≠ 0 →
        isValid (Nat.repr n) p use12HourClock = true) →
      handleChange tp use12HourClock p "" =
        ChangeOutcome.notify (numUpdate p none)) := by
  refine ⟨?_, ?_, ?_, ?_⟩
  · -- clause (a): the combined string is numeric and valid
    intro hnum hval
    rcases hbuf : getNumPart tp p with - | n
    · have hcomb : combinedString tp p (String.mk [c]) = String.mk [c] := by
        unfold combinedString
        rw [hbuf]
        rfl
      rw [hcomb] at hnum hval ⊢
      obtain ⟨hne, hdig⟩ := valid_nonempty_digits _ p use12HourClock hval
      have hjs : jsToNum (String.mk [c]) = some (digitsVal [c]) :=
        jsToNum_all_digits [c] (by simp) hdig
      simp [handleChange, hbuf, hjs, hval, mk_singleton_ne_empty]
    · by_cases hn0 : n = 0
      · subst hn0
        have hcomb : combinedString tp p (String.mk [c]) = String.mk ['0', c] := by
          unfold combinedString
          rw [hbuf]
          rfl
        rw [hcomb] at hnum hval ⊢
        obtain ⟨hvc, hdc⟩ := valid_zero_cons p use12HourClock c hval
        have hjs1 : jsToNum (String.mk [c]) = some ((digitVal c : Int)) := by
          rw [jsToNum_singleton]
          simp [hdc]
        simp [handleChange, hbuf, hjs1, hvc, mk_singleton_ne_empty,
          digitsVal_zero_cons]
      · have hcomb : combinedString tp p (String.mk [c]) =
            Nat.repr n ++ String.mk [c] := by
          unfold combinedString
          rw [hbuf]
          rfl
        rw [hcomb] at hnum hval ⊢
        obtain ⟨hne, hdig⟩ := valid_nonempty_digits _ p use12HourClock hval
        have hjs : jsToNum (Nat.repr n ++ String.mk [c]) =
            some (digitsVal (Nat.repr n ++ String.mk [c]).data) :=
          jsToNum_all_digits _ hne hdig
        simp [handleChange, hbuf, hn0, hjs, hval, mk_singleton_ne_empty,
          append_singleton_ne_empty]
  · -- clause (b): combined rejected, raw digit alone valid: restart
    intro hna hdc hvc
    have hjs1 : jsToNum (String.mk [c]) = some ((digitVal c : Int)) := by
      rw [jsToNum_singleton]
      simp [hdc]
    rcases hbuf : getNumPart tp p with - | n
    · have hcomb : combinedString tp p (String.mk [c]) = String.mk [c] := by
        unfold combinedString
        rw [hbuf]
        rfl
      rw [hcomb] at hna
      exact absurd ⟨by simp [hjs1], hvc⟩ hna
    · by_cases hn0 : n = 0
      · subst hn0
        simp [handleChange, hbuf, hjs1, hvc, mk_singleton_ne_empty]
      · have hcomb : combinedString tp p (String.mk [c]) =
            Nat.repr n ++ String.mk [c] := by
          unfold combinedString
          rw [hbuf]
          rfl
        rw [hcomb] at hna
        have hcond := handleChange_cond_true (Nat.repr n ++ String.mk [c]) p
          use12HourClock (append_singleton_ne_empty _ c) hna
        rw [handleChange_unfold tp use12HourClock p (String.mk [c]) (Nat.repr n)
          (by rw [hbuf]; exact if_neg hn0)]
        rw [if_pos hcond]
        rw [if_pos (show (isValid (String.mk [c]) p use12HourClock &&
            (jsToNum (String.mk [c])).isSome) = true by simp [hvc, hjs1])]
        simp [hjs1, mk_singleton_ne_empty]
  · -- clause (c): neither combined nor raw accepted: rejected
    intro hna hnb
    rcases hbuf : getNumPart tp p with - | n
    · have hcomb : combinedString tp p (String.mk [c]) = String.mk [c] := by
        unfold combinedString
        rw [hbuf]
        rfl
      rw [hcomb] at hna
      by_cases hvc : isValid (String.mk [c]) p use12HourClock = true
      · have hdc : isDigitCh c = false := by
          cases hx : isDigitCh c
          · rfl
          · exact absurd ⟨hx, hvc⟩ hnb
        have hjs1 : jsToNum (String.mk [c]) = none := by
          rw [jsToNum_singleton]
          simp [hdc]
        simp [handleChange, hbuf, hjs1, hvc]
      · simp only [Bool.not_eq_true] at hvc
        simp [handleChange, hbuf, hvc, mk_singleton_ne_empty]
    · by_cases hn0 : n = 0
      · subst hn0
        by_cases hvc : isValid (String.mk [c]) p use12HourClock = true
        · have hdc : isDigitCh c = false := by
            cases hx : isDigitCh c
            · rfl
            · exact absurd ⟨hx, hvc⟩ hnb
          have hjs1 : jsToNum (String.mk [c]) = none := by
            rw [jsToNum_singleton]
            simp [hdc]
          simp [handleChange, hbuf, hjs1, hvc]
        · simp only [Bool.not_eq_true] at hvc
          simp [handleChange, hbuf, hvc, mk_singleton_ne_empty]
      · have hcomb : combinedString tp p (String.mk [c]) =
            Nat.repr n ++ String.mk [c] := by
          unfold combinedString
          rw [hbuf]
          rfl
        rw [hcomb] at hna
        have hcond := handleChange_cond_true (Nat.repr n ++ String.mk [c]) p
          use12HourClock (append_singleton_ne_empty _ c) hna
        rw [handleChange_unfold tp use12HourClock p (String.mk [c]) (Nat.repr n)
          (by rw [hbuf]; exact if_neg hn0)]
        rw [if_pos hcond]
        by_cases hvc : isValid (String.mk [c]) p use12HourClock = true
        · have hdc : isDigitCh c = false := by
            cases hx : isDigitCh c
            · rfl
            · exact absurd ⟨hx, hvc⟩ hnb
          have hjs1 : jsToNum (String.mk [c]) = none := by
            rw [jsToNum_singleton]
            simp [hdc]
          rw [if_neg (by simp [hjs1])]
        · simp only [Bool.not_eq_true] at hvc
          rw [if_neg (by simp [hvc])]
  · -- clause (d): empty raw value clears the segment
    intro hv
    rcases hbuf : getNumPart tp p with - | n
    · simp [handleChange, hbuf, jsToNum]
    · by_cases hn0 : n = 0
      · subst hn0
        simp [handleChange, hbuf, jsToNum]
      · have hval := hv n hbuf hn0
        obtain ⟨hne, hdig⟩ :=
          valid_nonempty_digits (Nat.repr n) p use12HourClock hval
        have hjs : jsToNum (Nat.repr n) = some (digitsVal (Nat.repr n).data) :=
          jsToNum_all_digits _ hne hdig
        simp [handleChange, hbuf, hn0, hjs, hval]

/-- Witness for C4: typing "2" after a buffered 1 in hours yields 12; typing
"5" after a buffered 9 in minutes restarts to 5; an empty raw value clears a
buffered hours segment. -/
theorem keystroke_accumulation_witness :
    handleChange ⟨some 1, none, none, none, Meridiem.AM⟩ false NumPart.hours
        (String.mk ['2']) =
      ChangeOutcome.notify (numUpdate NumPart.hours (some 12)) ∧
    handleChange ⟨none, some 9, none, none, Meridiem.AM⟩ false NumPart.minutes
        (String.mk ['5']) =
      ChangeOutcome.notify (numUpdate NumPart.minutes (some 5)) ∧
    handleChange ⟨some 9, none, none, none, Meridiem.AM⟩ false NumPart.hours
        "" =
      ChangeOutcome.notify (numUpdate NumPart.hours none) :=
  ⟨(keystroke_accumulation ⟨some 1, none, none, none, Meridiem.AM⟩ false
      NumPart.hours '2').1 (by decide) (by decide),
   (keystroke_accumulation ⟨none, some 9, none, none, Meridiem.AM⟩ false
      NumPart.minutes '5').2.1 (by decide) (by decide) (by decide),
   (keystroke_accumulation ⟨some 9, none, none, none, Meridiem.AM⟩ false
      NumPart.hours '9').2.2.2 (by decide)⟩

/-- Claim C5: incrementing or decrementing a numeric segment is rejected as a
no-op exactly when the stringified resulting value fails the segment
validator; in particular an Up-arrow on hours 23 in 24-hour mode leaves the
segment unchanged — the value never wraps around. -/
theorem increment_boundary_noop :
    (∀ (tp : TimeParts) (use12HourClock : Bool) (p : NumPart) (inc : Int),
      increment false tp use12HourClock (Part.num p) inc = some IncOutcome.noop ↔
        isValid (jsIntString (((getNumPart tp p).getD 0 : Nat) + inc)) p
            use12HourClock = false) ∧
    increment false ⟨some 23, some 0, none, none, Meridiem.AM⟩ false
        (Part.num NumPart.hours) 1 = some IncOutcome.noop := by
  constructor
  · intro tp use12HourClock p inc
    by_cases hv :
      isValid (jsIntString (((getNumPart tp p).getD 0 : Nat) + inc)) p
          use12HourClock = true
    · simp [increment, useEditableCallback, incrementInner, hv]
    · simp only [Bool.not_eq_true] at hv
      simp [increment, useEditableCallback, incrementInner, hv]
  · decide

/-- Claim C6 counterexample: the all-absent segment record classifies as
empty, yet `isPartialValue` is also true on it — refuting the claim that
`isPartialValue` holds only when some (but not all) required fields are
present. -/
theorem all_absent_empty_and_isPartialValue :
    isEmptyValue ⟨none, none, none, none, Meridiem.AM⟩ Precision.minutes = true ∧
    isPartialValue ⟨none, none, none, none, Meridiem.AM⟩ Precision.minutes = true := by
  decide

/-- Claim C6 (amended): `isEmptyValue p precision` holds iff every numeric
field required by the precision is absent, and `isPartialValue p precision`
holds iff some required field is absent (equivalently, not all required
fields are present) — so the all-absent record is both empty and, by this
weaker reading, also counted by `isPartialValue`. -/
theorem classification_characterization (p : TimeParts) (precision : Precision) :
    (isEmptyValue p precision = true ↔
      ∀ f ∈ requiredParts precision, getNumPart p f = none) ∧
    (isPartialValue p precision = true ↔
      ∃ f ∈ requiredParts precision, getNumPart p f = none) := by
  obtain ⟨h, m, s, ms, mer⟩ := p
  cases precision <;>
    simp [isEmptyValue, isPartialValue, requiredParts, getNumPart,
      Option.isNone_iff_eq_none] <;>
    tauto

/-- Claim C7 counterexample: an evaluation whose incoming value differs from
the session snapshot, yet — the module-level desync counter having reached
its bound of 100 — the session is not reset, and the retained segments do not
equal the decomposition of the incoming value. -/
theorem desync_counter_blocks_reset :
    useTimePartState 100
        ⟨none, false, ⟨none, none, none, none, Meridiem.AM⟩⟩
        (some ⟨0, 1, 2, 3, 4⟩) false =
      (101, ⟨none, false, ⟨none, none, none, none, Meridiem.AM⟩⟩) ∧
    getValueParts (some ⟨0, 1, 2, 3, 4⟩) false ≠
      ⟨none, none, none, none, Meridiem.AM⟩ := by
  decide

/-- Claim C7 (amended): on every evaluation in which the externally supplied
value or 12-hour mode differs from the session's snapshot, the session is
reset — segments rederived from the new value and mode, discarding any
in-progress edit — provided the module-level desync counter is still below
its bound of 100 after being bumped; at or past the bound the stale session
is retained. -/
theorem reconciliation_reset (count : Nat) (st : TPState) (value : Option JDate)
    (use12HourClock : Bool)
    (hdiff : st.value ≠ value ∨ st.use12HourClock ≠ use12HourClock)
    (hcount : count + 1 < 100) :
    useTimePartState count st value use12HourClock =
      (count + 1,
        { value := value, use12HourClock := use12HourClock,
          timeParts := getValueParts value use12HourClock }) := by
  unfold useTimePartState
  rw [if_pos hdiff, if_pos hcount]

/-- Witness for C7's amended theorem at a concrete differing evaluation. -/
theorem reconciliation_reset_witness :
    useTimePartState 0 ⟨none, false, ⟨none, none, none, none, Meridiem.AM⟩⟩
        (some ⟨0, 1, 2, 3, 4⟩) false =
      (1,
        { value := some ⟨0, 1, 2, 3, 4⟩, use12HourClock := false,
          timeParts := getValueParts (some ⟨0, 1, 2, 3, 4⟩) false }) :=
  reconciliation_reset 0 _ _ _ (by decide) (by decide)

/-- Claim C8: activating the clear control when a concrete value exists calls
`onChange(null)`; activating it when the value is already absent resets the
buffered segments to the all-absent record (meridiem `AM`); in both cases
focus moves to the hours segment. -/
theorem clear_action (value : Option JDate) :
    (value.isSome = true →
      handleClear false value =
        some { focusHours := true, action := ClearAction.notifyNull }) ∧
    (value = none →
      handleClear false value =
        some { focusHours := true,
               action := ClearAction.reset ⟨none, none, none, none, Meridiem.AM⟩ }) := by
  constructor <;> intro h
  · simp [handleClear, useEditableCallback, handleClearInner, h]
  · subst h; decide

/-- Witness for C8 at a concrete value and at the absent value. -/
theorem clear_action_witness :
    handleClear false (some ⟨0, 14, 5, 0, 0⟩) =
      some { focusHours := true, action := ClearAction.notifyNull } ∧
    handleClear false none =
      some { focusHours := true,
             action := ClearAction.reset ⟨none, none, none, none, Meridiem.AM⟩ } :=
  ⟨(clear_action (some ⟨0, 14, 5, 0, 0⟩)).1 rfl, (clear_action none).2 rfl⟩

/-- Claim C9: while the control is disabled or read-only, the wrapped
increment, clear and key-down handlers are suppressed entirely — no segment
mutation and no `onChange` — and, per the key-down body, while read-only any
key other than Tab has its default prevented. -/
theorem disabled_readonly_suppression (disabled readOnly : Bool)
    (tp : TimeParts) (use12HourClock : Bool) (part : Part) (inc : Int)
    (value : Option JDate) (key : String) (selStart selEnd valueLength : Nat)
    (hdr : (disabled || readOnly) = true) :
    increment (disabled || readOnly) tp use12HourClock part inc = none ∧
    handleClear (disabled || readOnly) value = none ∧
    handleKeyDown (disabled || readOnly) part readOnly key selStart selEnd
        valueLength = none ∧
    (key ≠ "Tab" →
      (handleKeyDownInner part true key selStart selEnd valueLength).prevented =
        true) := by
  refine ⟨?_, ?_, ?_, fun hk => ?_⟩
  · simp [increment, useEditableCallback, hdr]
  · simp [handleClear, useEditableCallback, hdr]
  · simp [handleKeyDown, useEditableCallback, hdr]
  · simp [handleKeyDownInner, hk]

/-- Witness for C9 with `disabled = false`, `readOnly = true` and a concrete
key press. -/
theorem disabled_readonly_suppression_witness :
    increment (false || true) ⟨none, none, none, none, Meridiem.AM⟩ false
        (Part.num NumPart.hours) 1 = none ∧
    handleClear (false || true) none = none ∧
    handleKeyDown (false || true) (Part.num NumPart.hours) true "ArrowUp" 0 0 1 =
      none ∧
    ("ArrowUp" ≠ "Tab" →
      (handleKeyDownInner (Part.num NumPart.hours) true "ArrowUp" 0 0 1).prevented =
        true) :=
  disabled_readonly_suppression false true ⟨none, none, none, none, Meridiem.AM⟩
    false (Part.num NumPart.hours) 1 none "ArrowUp" 0 0 1 rfl

/-- Claim C10: incrementing an absent numeric segment treats it as 0, so an
Up-arrow (+1) stores 1 — valid for every segment in every mode — while a
Down-arrow (−1) yields −1, whose string form fails every validator, so the
segment stays absent. -/
theorem increment_absent_segment (tp : TimeParts) (use12HourClock : Bool)
    (p : NumPart) (h : getNumPart tp p = none) :
    increment false tp use12HourClock (Part.num p) 1 =
      some (IncOutcome.notify (numUpdate p (some 1))) ∧
    increment false tp use12HourClock (Part.num p) (-1) = some IncOutcome.noop := by
  cases p <;> cases use12HourClock <;>
    simp [increment, useEditableCallback, incrementInner, h] <;> decide

/-- Witness for C10 on the all-absent record's hours segment. -/
theorem increment_absent_segment_witness :
    increment false ⟨none, none, none, none, Meridiem.AM⟩ false
        (Part.num NumPart.hours) 1 =
      some (IncOutcome.notify (numUpdate NumPart.hours (some 1))) ∧
    increment false ⟨none, none, none, none, Meridiem.AM⟩ false
        (Part.num NumPart.hours) (-1) = some IncOutcome.noop :=
  increment_absent_segment ⟨none, none, none, none, Meridiem.AM⟩ false
    NumPart.hours rfl

end TimeInput
